import Mathlib

/-!
Shallow embedding of the polymarket-bot-arena core pipeline
(src/bots/base_bot.py, src/arena.py and the strategy variants) and
verification of the spec's claims about it.

Modelling conventions:
* Python floats are modelled as `ℚ` (all arithmetic in the embedded code is
  exact rational arithmetic except `math.sqrt`, which is passed in as a
  parameter where it occurs).
* External collaborators (the `config` module, the `db` store, the
  `learning` bias oracle, the settlement APIs) are modelled as explicit
  parameters: `max_pos`, daily-loss figures, the learned bias, feature keys
  and the random draws of `random.*` are inputs to the embedded functions.
* Log messages and the `reasoning` strings are not modelled; they do not
  influence control flow.
-/

namespace Arena

/-- Raw strategy signal, the result of `BaseBot.analyze`
(src/bots/base_bot.py). `action` is `"buy"`, `"sell"` or `"hold"`;
`side` is `"yes"` or `"no"`. -/
structure RawSignal where
  action : String
  side : String
  confidence : ℚ
deriving Repr, DecidableEq

/-- A blended trading decision, the result of `BaseBot.make_decision`. -/
structure Decision where
  action : String
  side : String
  confidence : ℚ
  suggested_amount : ℚ
deriving Repr, DecidableEq

/-- The blend of strategy signal and learned bias computed inside
`BaseBot.make_decision` (src/bots/base_bot.py lines 89-103).
`learned_yes_bias` is the Bias Oracle's answer, an external input. -/
def combined_yes (raw : RawSignal) (learned_yes_bias : ℚ) : ℚ :=
  if raw.action ≠ "hold" then
    (if raw.side = "yes" then (1 : ℚ) else 0) * raw.confidence * (6/10)
      + learned_yes_bias * (4/10)
      + (1 - raw.confidence) * (1/2) * (6/10)
  else
    learned_yes_bias

/-- Embeds `BaseBot.make_decision` (src/bots/base_bot.py lines 59-123).
The feature extraction and the bias-oracle query are external; the learned
bias enters as the parameter `learned_yes_bias`. `max_pos` is
`config.get_max_position()`. -/
def make_decision (raw : RawSignal) (learned_yes_bias max_pos : ℚ) : Decision :=
  let cy := combined_yes raw learned_yes_bias
  let side := if cy > 1/2 then "yes" else "no"
  let confidence0 := |cy - 1/2| * 2
  let confidence := max (1/10) (min (95/100) confidence0)
  let min_bet := max_pos * (2/100)
  let max_bet := max_pos * (10/100)
  { action := "buy"
    side := side
    confidence := confidence
    suggested_amount := min_bet + (max_bet - min_bet) * confidence }

/-- Embeds `MeanRevSLBot.make_decision` (src/bots/bot_meanrev_sl.py lines 26-40):
take the base decision and, when it is a buy, scale the bet by 1.5 capped
at the global max position. -/
def meanrev_sl_make_decision (raw : RawSignal) (learned_yes_bias max_pos : ℚ) :
    Decision :=
  let d := make_decision raw learned_yes_bias max_pos
  if d.action = "buy" then
    { d with suggested_amount := min (d.suggested_amount * (3/2)) max_pos }
  else
    d

/-- C1: the Decision Blender always returns an actionable buy, the blend is
the spec's formula in both the actionable and hold cases, and the final
side is yes exactly when the blend exceeds 1/2. -/
theorem make_decision_blend_spec (raw : RawSignal) (bias max_pos : ℚ) :
    (make_decision raw bias max_pos).action = "buy" ∧
    (raw.action ≠ "hold" →
      combined_yes raw bias =
        (if raw.side = "yes" then (1 : ℚ) else 0) * raw.confidence * (6/10)
          + bias * (4/10) + (1 - raw.confidence) * (1/2) * (6/10)) ∧
    (raw.action = "hold" → combined_yes raw bias = bias) ∧
    (make_decision raw bias max_pos).side =
      (if combined_yes raw bias > 1/2 then "yes" else "no") := by
  refine ⟨rfl, ?_, ?_, rfl⟩
  · intro h
    simp [combined_yes, h]
  · intro h
    simp [combined_yes, h]

/-- Witness for C1 at a concrete actionable signal. -/
theorem make_decision_blend_spec_witness :
    let raw : RawSignal := ⟨"buy", "yes", 7/10⟩
    raw.action ≠ "hold" ∧
    combined_yes raw (3/5) =
      (if raw.side = "yes" then (1 : ℚ) else 0) * raw.confidence * (6/10)
        + (3/5) * (4/10) + (1 - raw.confidence) * (1/2) * (6/10) := by
  exact ⟨by decide, (make_decision_blend_spec ⟨"buy", "yes", 7/10⟩ (3/5) 100).2.1
    (by decide)⟩

/-! ## Risk gate (`BaseBot.execute`, src/bots/base_bot.py lines 125-147) -/

/-- Outcome of one execution attempt: a rejection with the source's reason
string, or `attempted`, meaning control reached the try-block that submits
the order to the settlement layer (external). -/
inductive ExecResult
  | rejected (reason : String)
  | attempted
deriving Repr, DecidableEq

/-- The risk-gate portion of `BaseBot.execute`. The bot's `_paused` flag is
the explicit state; `daily_loss` is `db.get_bot_daily_loss`, `total_daily`
is `db.get_total_daily_loss`, and the caps come from `config` — all
external inputs. Returns the new paused flag and the outcome. -/
def execute (paused : Bool) (daily_loss total_daily max_daily max_total : ℚ) :
    Bool × ExecResult :=
  if paused then (true, .rejected "bot_paused")
  else if daily_loss ≥ max_daily then (true, .rejected "daily_loss_limit")
  else if total_daily ≥ max_total then (false, .rejected "arena_loss_limit")
  else (false, .attempted)

/-- A sequence of execution attempts by one bot, threading the paused flag;
each element of `attempts` carries the (bot, arena) daily losses the store
reports at that moment. -/
def run_executes (paused : Bool) (attempts : List (ℚ × ℚ))
    (max_daily max_total : ℚ) : Bool × List ExecResult :=
  match attempts with
  | [] => (paused, [])
  | (dl, tl) :: rest =>
    let step := execute paused dl tl max_daily max_total
    let tail := run_executes step.1 rest max_daily max_total
    (tail.1, step.2 :: tail.2)

/-- C2: an attempt at or above the per-bot daily cap pauses the bot and
rejects the trade, and a paused bot rejects every subsequent attempt
(remaining paused) until reset. -/
theorem execute_daily_cap_pauses (dl tl max_daily max_total : ℚ)
    (attempts : List (ℚ × ℚ)) (h : dl ≥ max_daily) :
    execute false dl tl max_daily max_total =
      (true, .rejected "daily_loss_limit") ∧
    run_executes true attempts max_daily max_total =
      (true, attempts.map fun _ => .rejected "bot_paused") := by
  constructor
  · simp [execute, h]
  · induction attempts with
    | nil => rfl
    | cons a rest ih =>
      obtain ⟨dl', tl'⟩ := a
      simp [run_executes, execute, ih]

/-- Witness for C2 at concrete losses and caps. -/
theorem execute_daily_cap_pauses_witness :
    (50 : ℚ) ≥ 40 ∧
    execute false 50 60 40 100 = (true, .rejected "daily_loss_limit") ∧
    run_executes true [(0, 0), (50, 60)] 40 100 =
      (true, [.rejected "bot_paused", .rejected "bot_paused"]) := by
  have h := execute_daily_cap_pauses 50 60 40 100 [(0, 0), (50, 60)]
    (by norm_num)
  exact ⟨by norm_num, h.1, h.2⟩

/-- C3: with the bot unpaused and under its own cap, an attempt made while
the arena-wide daily loss is at or above the aggregate cap is rejected and
the paused flag stays `false` — the aggregate throttle pauses nobody. -/
theorem execute_aggregate_cap_no_pause (dl tl max_daily max_total : ℚ)
    (hbot : ¬ dl ≥ max_daily) (htot : tl ≥ max_total) :
    execute false dl tl max_daily max_total =
      (false, .rejected "arena_loss_limit") := by
  simp [execute, hbot, htot]

/-- Witness for C3 at concrete losses and caps. -/
theorem execute_aggregate_cap_no_pause_witness :
    ¬ (10 : ℚ) ≥ 40 ∧ (120 : ℚ) ≥ 100 ∧
    execute false 10 120 40 100 = (false, .rejected "arena_loss_limit") :=
  ⟨by norm_num, by norm_num,
    execute_aggregate_cap_no_pause 10 120 40 100 (by norm_num) (by norm_num)⟩

/-! ## Market dedup (`main_loop`, src/arena.py lines 294, 303-307, 337-354) -/

/-- A (bot name, market id) pair. -/
abbrev PairKey := String × String

/-- The inner double loop of `main_loop` over (bot, market) pairs with the
persistent `traded` set (modelled as a list): a pair already in the set is
skipped; otherwise the trade decision is attempted — on success, failure or
caught exception alike — and the pair is added. Returns the final set and
the list of pairs for which a decision was actually executed, in order.
The set is cleared only at an evolution boundary (a fresh call starting
from `[]`). -/
def process_pairs (pairs : List PairKey) (traded : List PairKey) :
    List PairKey × List PairKey :=
  match pairs with
  | [] => (traded, [])
  | k :: rest =>
    if k ∈ traded then process_pairs rest traded
    else
      let res := process_pairs rest (k :: traded)
      (res.1, k :: res.2)

/-- Consecutive polling iterations within one epoch compose: running the
concatenated pair stream equals running the two streams in sequence with
the traded set carried over. -/
theorem process_pairs_append (xs ys : List PairKey) (t : List PairKey) :
    process_pairs (xs ++ ys) t =
      ((process_pairs ys (process_pairs xs t).1).1,
        (process_pairs xs t).2 ++ (process_pairs ys (process_pairs xs t).1).2) := by
  induction xs generalizing t with
  | nil => simp [process_pairs]
  | cons k rest ih =>
    by_cases hk : k ∈ t
    · simp [process_pairs, hk, ih]
    · simp [process_pairs, hk, ih]

/-- C4: within one dedup epoch each (bot, market) pair executes at most
once, and a pair already in the traded set never executes again. -/
theorem process_pairs_at_most_once (pairs : List PairKey)
    (traded : List PairKey) (k : PairKey) :
    (k ∈ traded → (process_pairs pairs traded).2.count k = 0) ∧
    (process_pairs pairs traded).2.count k ≤ 1 := by
  induction pairs generalizing traded with
  | nil => simp [process_pairs]
  | cons p rest ih =>
    by_cases hp : p ∈ traded
    · simpa [process_pairs, hp] using ih traded
    · constructor
      · intro hk
        have hne : p ≠ k := fun h => hp (h ▸ hk)
        have h0 := (ih (p :: traded)).1 (List.mem_cons_of_mem p hk)
        simp [process_pairs, hp, List.count_cons, hne, h0]
      · by_cases hpk : p = k
        · subst hpk
          have h0 := (ih (p :: traded)).1 (List.mem_cons_self p traded)
          simp [process_pairs, hp, List.count_cons, h0]
        · have h1 := (ih (p :: traded)).2
          simp [process_pairs, hp, List.count_cons, hpk]
          simpa using h1

/-- Witness for C4: a repeated pair in one epoch executes once; a pair
already in the traded set executes zero times. -/
theorem process_pairs_at_most_once_witness :
    (process_pairs [("momentum-v1", "m1"), ("momentum-v1", "m1")] []).2.count
        ("momentum-v1", "m1") ≤ 1 ∧
    (("momentum-v1", "m1") ∈ ([("momentum-v1", "m1")] : List PairKey) →
      (process_pairs [("momentum-v1", "m1")]
          [("momentum-v1", "m1")]).2.count ("momentum-v1", "m1") = 0) :=
  ⟨(process_pairs_at_most_once [("momentum-v1", "m1"), ("momentum-v1", "m1")]
      [] ("momentum-v1", "m1")).2,
   (process_pairs_at_most_once [("momentum-v1", "m1")]
      [("momentum-v1", "m1")] ("momentum-v1", "m1")).1⟩

/-! ## Claim C5: bet sizing bounds -/

/-- The blended confidence is clamped into `[0.1, 0.95]`. -/
theorem make_decision_conf_mem (raw : RawSignal) (bias max_pos : ℚ) :
    1/10 ≤ (make_decision raw bias max_pos).confidence ∧
      (make_decision raw bias max_pos).confidence ≤ 95/100 := by
  refine ⟨le_max_left _ _, max_le (by norm_num) (min_le_left _ _)⟩

/-- The base bet formula is monotone in confidence for a nonnegative max
position. -/
theorem bet_formula_mono (max_pos c c' : ℚ) (hmp : 0 ≤ max_pos) (h : c ≤ c') :
    max_pos * (2/100) + (max_pos * (10/100) - max_pos * (2/100)) * c ≤
      max_pos * (2/100) + (max_pos * (10/100) - max_pos * (2/100)) * c' := by
  nlinarith

/-- C5 counterexample: the stop-loss sizing decorator can bet more than 10%
of the max position. With a learned bias of 0.95 on a hold signal and max
position 100, the decorated bet is 13.8 > 10. -/
theorem meanrev_sl_amount_exceeds_ten_percent :
    ¬ ((meanrev_sl_make_decision ⟨"hold", "yes", 0⟩ (95/100) 100).suggested_amount
        ≤ 100 * (10/100)) := by
  norm_num [meanrev_sl_make_decision, make_decision, combined_yes,
    abs_of_nonneg, min_def, max_def]

/-- C5 amended: confidence is always in `[0.1, 0.95]`; the base bet lies in
`[2%, 10%]` of max position and is non-decreasing in confidence; the
stop-loss decorator keeps the same confidence, bets `min(1.5 × base, max
position)`, hence lies in `[3%, 15%]` of max position and is still
non-decreasing in confidence. -/
theorem blended_decision_bounds (raw : RawSignal) (bias max_pos : ℚ)
    (hmp : 0 ≤ max_pos) :
    (1/10 ≤ (make_decision raw bias max_pos).confidence ∧
      (make_decision raw bias max_pos).confidence ≤ 95/100) ∧
    (max_pos * (2/100) ≤ (make_decision raw bias max_pos).suggested_amount ∧
      (make_decision raw bias max_pos).suggested_amount ≤ max_pos * (10/100)) ∧
    (meanrev_sl_make_decision raw bias max_pos).confidence =
      (make_decision raw bias max_pos).confidence ∧
    (meanrev_sl_make_decision raw bias max_pos).suggested_amount =
      min ((make_decision raw bias max_pos).suggested_amount * (3/2)) max_pos ∧
    (max_pos * (3/100) ≤
        (meanrev_sl_make_decision raw bias max_pos).suggested_amount ∧
      (meanrev_sl_make_decision raw bias max_pos).suggested_amount ≤
        max_pos * (15/100)) ∧
    (∀ raw' bias',
      (make_decision raw bias max_pos).confidence ≤
          (make_decision raw' bias' max_pos).confidence →
        (make_decision raw bias max_pos).suggested_amount ≤
            (make_decision raw' bias' max_pos).suggested_amount ∧
          (meanrev_sl_make_decision raw bias max_pos).suggested_amount ≤
            (meanrev_sl_make_decision raw' bias' max_pos).suggested_amount) := by
  obtain ⟨hc1, hc2⟩ := make_decision_conf_mem raw bias max_pos
  set c := (make_decision raw bias max_pos).confidence with hc
  have hamt : (make_decision raw bias max_pos).suggested_amount =
      max_pos * (2/100) + (max_pos * (10/100) - max_pos * (2/100)) * c := rfl
  have hsl : meanrev_sl_make_decision raw bias max_pos =
      { make_decision raw bias max_pos with
        suggested_amount :=
          min ((make_decision raw bias max_pos).suggested_amount * (3/2))
            max_pos } := by
    simp [meanrev_sl_make_decision, make_decision]
  refine ⟨⟨hc1, hc2⟩, ⟨?_, ?_⟩, by rw [hsl], by rw [hsl], ⟨?_, ?_⟩, ?_⟩
  · rw [hamt]; nlinarith
  · rw [hamt]; nlinarith
  · rw [hsl]
    refine le_min ?_ (by nlinarith)
    rw [hamt]; nlinarith
  · rw [hsl]
    refine le_trans (min_le_left _ _) ?_
    rw [hamt]; nlinarith
  · intro raw' bias' hmono
    obtain ⟨hc1', hc2'⟩ := make_decision_conf_mem raw' bias' max_pos
    have hamt' : (make_decision raw' bias' max_pos).suggested_amount =
        max_pos * (2/100) + (max_pos * (10/100) - max_pos * (2/100)) *
          (make_decision raw' bias' max_pos).confidence := rfl
    have hbase : (make_decision raw bias max_pos).suggested_amount ≤
        (make_decision raw' bias' max_pos).suggested_amount := by
      rw [hamt, hamt']
      exact bet_formula_mono max_pos _ _ hmp hmono
    have hsl' : meanrev_sl_make_decision raw' bias' max_pos =
        { make_decision raw' bias' max_pos with
          suggested_amount :=
            min ((make_decision raw' bias' max_pos).suggested_amount * (3/2))
              max_pos } := by
      simp [meanrev_sl_make_decision, make_decision]
    refine ⟨hbase, ?_⟩
    rw [hsl, hsl']
    exact min_le_min (by linarith) le_rfl

/-- Witness for C5 at a concrete decision. -/
theorem blended_decision_bounds_witness :
    (0 : ℚ) ≤ 100 ∧
    (1/10 ≤ (make_decision ⟨"buy", "yes", 7/10⟩ (3/5) 100).confidence ∧
      (make_decision ⟨"buy", "yes", 7/10⟩ (3/5) 100).confidence ≤ 95/100) :=
  ⟨by norm_num, (blended_decision_bounds ⟨"buy", "yes", 7/10⟩ (3/5) 100
    (by norm_num)).1⟩

/-! ## Parameter mutation (`BaseBot.mutate`, src/bots/base_bot.py 179-197) -/

/-- A strategy-parameter value: Python `int`, `float`, or a non-numeric
(categorical) value. -/
inductive PValue
  | pint (n : ℤ)
  | pfloat (q : ℚ)
  | pstr (s : String)
deriving Repr, DecidableEq

/-- The source's numeric-key test `isinstance(v, (int, float))`. -/
def PValue.isNumeric : PValue → Bool
  | .pint _ => true
  | .pfloat _ => true
  | .pstr _ => false

/-- A parameter mapping; Python dicts keep insertion order and have
pairwise-distinct keys, so an association list. -/
abbrev Params := List (String × PValue)

/-- The source's `numeric_keys = [k for k, v in new_params.items() if isinstance(v, (int, float))]`. -/
def numeric_keys (params : Params) : List String :=
  (params.filter fun kv => kv.2.isNumeric).map Prod.fst

/-- Python `int(x)`: truncation toward zero. -/
def trunc_rat (q : ℚ) : ℤ := if 0 ≤ q then ⌊q⌋ else ⌈q⌉

/-- Python `round(x, 4)`, modelled with round-half-up on rationals (Python
rounds binary floats half-to-even; the two differ only at exact 5·10⁻⁵
ties, on which nothing here depends). -/
def round4 (q : ℚ) : ℚ := (round (q * 10000) : ℤ) / 10000

/-- One mutated value: `new_val = val + val * u` with
`u = random.uniform(-rate, rate)` the explicit random draw; ints are
truncated and floored at 1, floats rounded to 4 places and floored at
0.01. Non-numeric values are never sampled, so they pass through. -/
def mutate_value (u : ℚ) : PValue → PValue
  | .pint n => .pint (max 1 (trunc_rat ((n : ℚ) + (n : ℚ) * u)))
  | .pfloat q => .pfloat (max (1/100) (round4 (q + q * u)))
  | .pstr s => .pstr s

/-- One entry of the mutated mapping: keys in the sampled subset `chosen`
(and numeric, as `random.sample(numeric_keys, …)` guarantees) are
perturbed, the rest are copied. -/
def mutate_entry (chosen : List String) (u : String → ℚ)
    (kv : String × PValue) : String × PValue :=
  if kv.1 ∈ chosen ∧ kv.2.isNumeric = true then
    (kv.1, mutate_value (u kv.1) kv.2)
  else kv

/-- Embeds `BaseBot.mutate` with the random draws explicit: `chosen` is the subset
picked by `random.sample` (its size is `min(randint(2,3), len(numeric_keys))`,
stated as a hypothesis where needed) and `u k` the uniform draw in
`[-rate, rate]` used for key `k`. -/
def mutate (params : Params) (chosen : List String) (u : String → ℚ) :
    Params :=
  params.map (mutate_entry chosen u)

/-- The keys whose value differs between a mapping and its mutation. -/
def changed_keys (params new : Params) : List String :=
  ((params.zip new).filter fun p => p.1.2 != p.2.2).map fun p => p.1.1

theorem mutate_keys_eq (params : Params) (chosen : List String)
    (u : String → ℚ) :
    (mutate params chosen u).map Prod.fst = params.map Prod.fst := by
  induction params with
  | nil => rfl
  | cons kv rest ih =>
    simp only [mutate, List.map_cons] at *
    refine congrArg₂ _ ?_ ih
    by_cases h : kv.1 ∈ chosen ∧ kv.2.isNumeric = true
    · simp [mutate_entry, h]
    · simp [mutate_entry, h]

theorem changed_keys_cons (kv kv' : String × PValue) (ps news : Params) :
    changed_keys (kv :: ps) (kv' :: news) =
      if kv.2 != kv'.2 then kv.1 :: changed_keys ps news
      else changed_keys ps news := by
  simp only [changed_keys, List.zip_cons_cons, List.filter_cons]
  split <;> simp

theorem mutate_cons (kv : String × PValue) (rest : Params)
    (chosen : List String) (u : String → ℚ) :
    mutate (kv :: rest) chosen u =
      mutate_entry chosen u kv :: mutate rest chosen u := rfl

theorem changed_keys_mutate_subset (params : Params) (chosen : List String)
    (u : String → ℚ) :
    ∀ k ∈ changed_keys params (mutate params chosen u), k ∈ chosen := by
  induction params with
  | nil => intro k hk; simp [changed_keys, mutate] at hk
  | cons kv rest ih =>
    intro k hk
    rw [mutate_cons, changed_keys_cons] at hk
    by_cases h : kv.1 ∈ chosen ∧ kv.2.isNumeric = true
    · split at hk
      · rcases List.mem_cons.mp hk with hk | hk
        · exact hk ▸ h.1
        · exact ih k hk
      · exact ih k hk
    · have hsame : mutate_entry chosen u kv = kv := by simp [mutate_entry, h]
      rw [hsame] at hk
      simp only [bne_self_eq_false, if_false] at hk
      exact ih k hk

theorem changed_keys_subset_keys (params : Params) (chosen : List String)
    (u : String → ℚ) :
    ∀ k ∈ changed_keys params (mutate params chosen u),
      k ∈ params.map Prod.fst := by
  induction params with
  | nil => intro k hk; simp [changed_keys, mutate] at hk
  | cons kv rest ih =>
    intro k hk
    rw [mutate_cons, changed_keys_cons] at hk
    simp only [List.map_cons, List.mem_cons]
    split at hk
    · rcases List.mem_cons.mp hk with hk | hk
      · exact Or.inl hk
      · exact Or.inr (ih k hk)
    · exact Or.inr (ih k hk)

theorem changed_keys_mutate_nodup (params : Params) (chosen : List String)
    (u : String → ℚ) (hnd : (params.map Prod.fst).Nodup) :
    (changed_keys params (mutate params chosen u)).Nodup := by
  induction params with
  | nil => simp [changed_keys, mutate]
  | cons kv rest ih =>
    simp only [List.map_cons, List.nodup_cons] at hnd
    have tail_nd := ih hnd.2
    rw [mutate_cons, changed_keys_cons]
    split
    · exact List.nodup_cons.mpr
        ⟨fun hmem => hnd.1 (changed_keys_subset_keys rest chosen u kv.1 hmem),
          tail_nd⟩
    · exact tail_nd


/-- Bounds for a mutated nonnegative integer parameter: the perturbed value
is truncated toward zero and floored at 1, landing within the ±rate band
widened by 1 (truncation) and clipped below at 1. -/
theorem mutate_value_pint_bounds (rate u : ℚ) (n : ℤ) (hu : |u| ≤ rate)
    (hn : 0 ≤ n) :
    ∃ m : ℤ, mutate_value u (.pint n) = .pint m ∧ 1 ≤ m ∧
      max 1 ((n : ℚ) * (1 - rate) - 1) ≤ (m : ℚ) ∧
      (m : ℚ) ≤ max 1 ((n : ℚ) * (1 + rate)) := by
  obtain ⟨hu1, hu2⟩ := abs_le.mp hu
  have hrate : 0 ≤ rate := le_trans (abs_nonneg u) hu
  have hnq : (0 : ℚ) ≤ (n : ℚ) := by exact_mod_cast hn
  set x : ℚ := (n : ℚ) + (n : ℚ) * u with hxdef
  have hx1 : (n : ℚ) * (1 - rate) ≤ x := by rw [hxdef]; nlinarith
  have hx2 : x ≤ (n : ℚ) * (1 + rate) := by rw [hxdef]; nlinarith
  refine ⟨max 1 (trunc_rat x), rfl, le_max_left _ _, ?_, ?_⟩
  · rw [Int.cast_max, Int.cast_one]
    refine max_le_max le_rfl ?_
    unfold trunc_rat
    split
    · have hfl := Int.sub_one_lt_floor x
      linarith
    · have hce := Int.le_ceil x
      linarith
  · rw [Int.cast_max, Int.cast_one]
    refine max_le_max le_rfl ?_
    unfold trunc_rat
    split
    · exact le_trans (Int.floor_le x) hx2
    · rename_i hneg
      have hxle : x ≤ 0 := le_of_not_le hneg
      have hce : ⌈x⌉ ≤ (0 : ℤ) := Int.ceil_le.mpr (by push_cast; linarith)
      have hce' : (⌈x⌉ : ℚ) ≤ 0 := by exact_mod_cast hce
      nlinarith

/-- Bounds for a mutated nonnegative float parameter: the perturbed value
is rounded to 4 decimal places (off by at most 5·10⁻⁵) and floored at
0.01. -/
theorem mutate_value_pfloat_bounds (rate u : ℚ) (q : ℚ) (hu : |u| ≤ rate)
    (hq : 0 ≤ q) :
    ∃ q' : ℚ, mutate_value u (.pfloat q) = .pfloat q' ∧ 1/100 ≤ q' ∧
      max (1/100) (q * (1 - rate) - 1/20000) ≤ q' ∧
      q' ≤ max (1/100) (q * (1 + rate) + 1/20000) := by
  obtain ⟨hu1, hu2⟩ := abs_le.mp hu
  set x : ℚ := q + q * u with hxdef
  have hx1 : q * (1 - rate) ≤ x := by rw [hxdef]; nlinarith
  have hx2 : x ≤ q * (1 + rate) := by rw [hxdef]; nlinarith
  obtain ⟨hr1, hr2⟩ := abs_le.mp (abs_sub_round (x * 10000))
  have hround : x - 1/20000 ≤ round4 x ∧ round4 x ≤ x + 1/20000 := by
    unfold round4
    constructor <;> linarith
  refine ⟨max (1/100) (round4 x), rfl, le_max_left _ _, ?_, ?_⟩
  · exact max_le_max le_rfl (by linarith [hround.1])
  · exact max_le_max le_rfl (by linarith [hround.2])

/-- C7 counterexample: a parameter mapping with a single numeric key. The
source mutates `min(randint(2,3), len(numeric_keys))` keys, here exactly
one — not 2 or 3. `["rsi_period"]` is the only subset `random.sample` can
pick (stated by the first three conjuncts), and with the uniform draw 0.1
exactly one parameter changes. -/
theorem mutate_single_numeric_key_changes_one :
    (["rsi_period"].length =
      min 2 (numeric_keys [("rsi_period", PValue.pint 14)]).length) ∧
    (["rsi_period"] : List String).Nodup ∧
    "rsi_period" ∈ numeric_keys [("rsi_period", PValue.pint 14)] ∧
    (changed_keys [("rsi_period", PValue.pint 14)]
        (mutate [("rsi_period", PValue.pint 14)] ["rsi_period"]
          (fun _ => 1/10))).length = 1 ∧
    ¬ ((changed_keys [("rsi_period", PValue.pint 14)]
          (mutate [("rsi_period", PValue.pint 14)] ["rsi_period"]
            (fun _ => 1/10))).length = 2 ∨
       (changed_keys [("rsi_period", PValue.pint 14)]
          (mutate [("rsi_period", PValue.pint 14)] ["rsi_period"]
            (fun _ => 1/10))).length = 3) := by
  have htr : trunc_rat ((77 : ℚ)/5) = 15 := by
    unfold trunc_rat
    rw [if_pos (by norm_num)]
    rw [Int.floor_eq_iff]
    constructor <;> norm_num
  have hmut : mutate [("rsi_period", PValue.pint 14)] ["rsi_period"]
      (fun _ => 1/10) = [("rsi_period", PValue.pint 15)] := by
    simp only [mutate, mutate_entry, mutate_value, List.map_cons, List.map_nil,
      PValue.isNumeric, List.mem_singleton]
    norm_num [htr]
  refine ⟨rfl, by decide, by decide, ?_, ?_⟩ <;> rw [hmut] <;> decide

/-- The pointwise characterization of one mutated mapping entry: unchanged,
or perturbed within the ±rate band up to truncation/rounding and floors. -/
theorem mutate_zip_spec (params : Params) (chosen : List String)
    (u : String → ℚ) (rate : ℚ) (hu : ∀ k, |u k| ≤ rate) :
    ∀ p ∈ params.zip (mutate params chosen u),
      p.2.1 = p.1.1 ∧
      (p.2.2 = p.1.2 ∨
        (p.1.1 ∈ chosen ∧
          (∀ n : ℤ, p.1.2 = .pint n → 0 ≤ n →
            ∃ m : ℤ, p.2.2 = .pint m ∧ 1 ≤ m ∧
              max 1 ((n : ℚ) * (1 - rate) - 1) ≤ (m : ℚ) ∧
              (m : ℚ) ≤ max 1 ((n : ℚ) * (1 + rate))) ∧
          (∀ q : ℚ, p.1.2 = .pfloat q → 0 ≤ q →
            ∃ q' : ℚ, p.2.2 = .pfloat q' ∧ 1/100 ≤ q' ∧
              max (1/100) (q * (1 - rate) - 1/20000) ≤ q' ∧
              q' ≤ max (1/100) (q * (1 + rate) + 1/20000)))) := by
  induction params with
  | nil => intro p hp; simp [mutate] at hp
  | cons kv rest ih =>
    intro p hp
    rw [mutate_cons, List.zip_cons_cons] at hp
    rcases List.mem_cons.mp hp with hp | hp
    · subst hp
      by_cases h : kv.1 ∈ chosen ∧ kv.2.isNumeric = true
      · have he : mutate_entry chosen u kv =
            (kv.1, mutate_value (u kv.1) kv.2) := by
          simp [mutate_entry, h]
        refine ⟨by rw [he], Or.inr ⟨h.1, ?_, ?_⟩⟩
        · intro n hn hn0
          have hn' : kv.2 = PValue.pint n := hn
          obtain ⟨m, hm, hb⟩ :=
            mutate_value_pint_bounds rate (u kv.1) n (hu kv.1) hn0
          refine ⟨m, ?_, hb⟩
          show (mutate_entry chosen u kv).2 = PValue.pint m
          rw [he]
          show mutate_value (u kv.1) kv.2 = PValue.pint m
          rw [hn']
          exact hm
        · intro q hq hq0
          have hq'' : kv.2 = PValue.pfloat q := hq
          obtain ⟨q', hq', hb⟩ :=
            mutate_value_pfloat_bounds rate (u kv.1) q (hu kv.1) hq0
          refine ⟨q', ?_, hb⟩
          show (mutate_entry chosen u kv).2 = PValue.pfloat q'
          rw [he]
          show mutate_value (u kv.1) kv.2 = PValue.pfloat q'
          rw [hq'']
          exact hq'
      · have he : mutate_entry chosen u kv = kv := by simp [mutate_entry, h]
        exact ⟨by rw [he], Or.inl (by rw [he])⟩
    · exact ih p hp

/-- C7 amended: `mutate` keeps the key set, changes only keys in the subset
sampled by `random.sample` — whose size is `min(r, #numeric keys)` with
`r ∈ {2,3}`, hence at most 3 and equal to 2 or 3 only when the mapping has
at least two numeric keys — and every mutated value is the ±mutation_rate
perturbation of the original after truncation/rounding and the floors
(1 for ints, 0.01 for floats). -/
theorem mutate_spec (params : Params) (chosen : List String)
    (u : String → ℚ) (rate : ℚ) (r : ℕ)
    (hr : r = 2 ∨ r = 3)
    (hu : ∀ k, |u k| ≤ rate)
    (hnd : (params.map Prod.fst).Nodup)
    (hcnd : chosen.Nodup)
    (hlen : chosen.length = min r (numeric_keys params).length) :
    ((mutate params chosen u).map Prod.fst = params.map Prod.fst) ∧
    (∀ k ∈ changed_keys params (mutate params chosen u), k ∈ chosen) ∧
    (changed_keys params (mutate params chosen u)).length ≤
        min r (numeric_keys params).length ∧
    min r (numeric_keys params).length ≤ 3 ∧
    (∀ p ∈ params.zip (mutate params chosen u),
      p.2.1 = p.1.1 ∧
      (p.2.2 = p.1.2 ∨
        (p.1.1 ∈ chosen ∧
          (∀ n : ℤ, p.1.2 = .pint n → 0 ≤ n →
            ∃ m : ℤ, p.2.2 = .pint m ∧ 1 ≤ m ∧
              max 1 ((n : ℚ) * (1 - rate) - 1) ≤ (m : ℚ) ∧
              (m : ℚ) ≤ max 1 ((n : ℚ) * (1 + rate))) ∧
          (∀ q : ℚ, p.1.2 = .pfloat q → 0 ≤ q →
            ∃ q' : ℚ, p.2.2 = .pfloat q' ∧ 1/100 ≤ q' ∧
              max (1/100) (q * (1 - rate) - 1/20000) ≤ q' ∧
              q' ≤ max (1/100) (q * (1 + rate) + 1/20000))))) := by
  refine ⟨mutate_keys_eq params chosen u,
    changed_keys_mutate_subset params chosen u, ?_, ?_, ?_⟩
  · calc (changed_keys params (mutate params chosen u)).length
        ≤ chosen.length :=
          (List.subperm_of_subset (changed_keys_mutate_nodup params chosen u hnd)
            (changed_keys_mutate_subset params chosen u)).length_le
      _ = min r (numeric_keys params).length := hlen
  · rcases hr with hr | hr <;> simp [hr]
  · exact mutate_zip_spec params chosen u rate hu

/-- Witness for C7 at a concrete mapping and draws. -/
theorem mutate_spec_witness :
    ((2 : ℕ) = 2 ∨ (2 : ℕ) = 3) ∧
    (∀ k : String, |(fun _ : String => (1 : ℚ)/10) k| ≤ 1/5) ∧
    ((([("a", PValue.pint 5), ("b", PValue.pfloat 2)] : Params).map
        Prod.fst).Nodup) ∧
    (["a", "b"] : List String).Nodup ∧
    ((["a", "b"] : List String).length =
      min 2 (numeric_keys [("a", PValue.pint 5), ("b", PValue.pfloat 2)]).length) ∧
    (changed_keys [("a", PValue.pint 5), ("b", PValue.pfloat 2)]
        (mutate [("a", PValue.pint 5), ("b", PValue.pfloat 2)] ["a", "b"]
          (fun _ => 1/10))).length ≤
      min 2 (numeric_keys [("a", PValue.pint 5), ("b", PValue.pfloat 2)]).length := by
  refine ⟨Or.inl rfl, ?_, by decide, by decide, by decide, ?_⟩
  · intro k
    rw [abs_of_nonneg (by norm_num)]
    norm_num
  · exact (mutate_spec [("a", PValue.pint 5), ("b", PValue.pfloat 2)]
      ["a", "b"] (fun _ => 1/10) (1/5) 2 (Or.inl rfl)
      (fun k => by rw [abs_of_nonneg (by norm_num)]; norm_num)
      (by decide) (by decide) (by decide)).2.2.1

/-! ## Evolution scheduler (`run_evolution`/`create_evolved_bot`,
src/arena.py lines 49-67 and 70-135) -/

/-- A bot's persistent identity (src/bots/base_bot.py `__init__`). -/
structure Bot where
  name : String
  strategy_type : String
  strategy_params : Params
  generation : ℕ
  lineage : String
  paused : Bool
deriving Repr, DecidableEq

/-- Embeds `BaseBot.reset_daily`: clear the pause flag. -/
def reset_daily (b : Bot) : Bot := { b with paused := false }

/-- The `bot_classes` table in `create_evolved_bot`: an unknown strategy
type falls back to the momentum class, and each class constructor fixes the
child's strategy type. -/
def evolved_strategy_type (loser_type : String) : String :=
  if loser_type = "momentum" ∨ loser_type = "mean_reversion" ∨
      loser_type = "sentiment" ∨ loser_type = "hybrid" then loser_type
  else "momentum"

/-- Embeds `create_evolved_bot` (src/arena.py lines 49-67): clone-and-mutate the
winner's params, name the child `{loser_type}-g{gen_number}-{suffix}`
(`suffix` is the `random.randint(100, 999)` draw, `chosen`/`u` the mutation
draws), generation = `gen_number`, lineage `winner -> child`. -/
def create_evolved_bot (winner : Bot) (loser_type : String) (gen_number : ℕ)
    (suffix : ℕ) (chosen : List String) (u : String → ℚ) : Bot :=
  let cname := loser_type ++ "-g" ++ toString gen_number ++ "-" ++
    toString suffix
  { name := cname
    strategy_type := evolved_strategy_type loser_type
    strategy_params := mutate winner.strategy_params chosen u
    generation := gen_number
    lineage := winner.name ++ " -> " ++ cname
    paused := false }

/-- Descending insertion by pnl, the second component. Python's stable
`sort(key=pnl, reverse=True)`; on pairwise-distinct pnls — the only case
the claims exercise — every correct descending sort agrees. -/
def insert_ranked (x : String × ℚ) : List (String × ℚ) → List (String × ℚ)
  | [] => [x]
  | y :: ys => if y.2 ≥ x.2 then y :: insert_ranked x ys else x :: y :: ys

/-- The source's `rankings.sort(key=lambda x: x["pnl"], reverse=True)`; only the name
and pnl fields of a ranking entry feed control flow (the others are
logged). -/
def rank_desc : List (String × ℚ) → List (String × ℚ)
  | [] => []
  | x :: xs => insert_ranked x (rank_desc xs)

/-- The replacement loop of `run_evolution`: for the `i`-th dead bot, the
parent is `random.choice(winners)` (the draw `pick i`, reduced mod the
winner count; `winners` is never empty when `K ≥ 1` and there are `≥ K`
bots). -/
def spawn_children (winners : List Bot) (replaced : List Bot)
    (cycle_number : ℕ) (pick suffix : ℕ → ℕ) (chosen : ℕ → List String)
    (u : ℕ → String → ℚ) (i : ℕ) : List Bot :=
  match replaced with
  | [] => []
  | dead :: rest =>
    let parent := winners.getD (pick i % winners.length) dead
    create_evolved_bot parent dead.strategy_type cycle_number (suffix i)
        (chosen i) (u i) ::
      spawn_children winners rest cycle_number pick suffix chosen u (i + 1)

/-- Embeds `run_evolution` (src/arena.py lines 70-135): rank by trailing pnl
(external, the `pnl` map), keep the top `K = config.SURVIVORS_PER_CYCLE`
and reset their pause flags, retire the rest and replace each with one
evolved child. Returns the new bot list and the names retired via
`db.retire_bot`, in order. -/
def run_evolution (bots : List Bot) (pnl : String → ℚ) (K : ℕ)
    (cycle_number : ℕ) (pick suffix : ℕ → ℕ) (chosen : ℕ → List String)
    (u : ℕ → String → ℚ) : List Bot × List String :=
  let rankings := rank_desc (bots.map fun b => (b.name, pnl b.name))
  let survivor_names := (rankings.take K).map Prod.fst
  let replaced_names := (rankings.drop K).map Prod.fst
  let keep := (bots.filter fun b => decide (b.name ∈ survivor_names)).map
    reset_daily
  let winners := bots.filter fun b => decide (b.name ∈ survivor_names)
  let replaced := bots.filter fun b => decide (b.name ∈ replaced_names)
  let children :=
    spawn_children winners replaced cycle_number pick suffix chosen u 0
  (keep ++ children, replaced.map Bot.name)

/-- C6: with 4 bots at pnls [+50, -10, +5, -30] and K = 2, the +50 and +5
bots survive (reset), the -10 and -30 bots are retired in that order, and
each is replaced by exactly one child of generation = cycle number whose
lineage is `parent -> child` for a surviving parent. -/
theorem run_evolution_tournament (b0 b1 b2 b3 : Bot) (pnl : String → ℚ)
    (cycle_number : ℕ) (pick suffix : ℕ → ℕ) (chosen : ℕ → List String)
    (u : ℕ → String → ℚ)
    (hp0 : pnl b0.name = 50) (hp1 : pnl b1.name = -10)
    (hp2 : pnl b2.name = 5) (hp3 : pnl b3.name = -30)
    (hd01 : b0.name ≠ b1.name) (hd02 : b0.name ≠ b2.name)
    (hd03 : b0.name ≠ b3.name) (hd12 : b1.name ≠ b2.name)
    (hd13 : b1.name ≠ b3.name) (hd23 : b2.name ≠ b3.name) :
    ∃ c1 c2 : Bot,
      run_evolution [b0, b1, b2, b3] pnl 2 cycle_number pick suffix chosen u =
        ([reset_daily b0, reset_daily b2, c1, c2], [b1.name, b3.name]) ∧
      c1.generation = cycle_number ∧ c2.generation = cycle_number ∧
      (∃ p ∈ ([b0, b2] : List Bot),
        c1.lineage = p.name ++ " -> " ++ c1.name) ∧
      (∃ p ∈ ([b0, b2] : List Bot),
        c2.lineage = p.name ++ " -> " ++ c2.name) := by
  have hrank :
      rank_desc [(b0.name, pnl b0.name), (b1.name, pnl b1.name),
        (b2.name, pnl b2.name), (b3.name, pnl b3.name)] =
      [(b0.name, 50), (b2.name, 5), (b1.name, -10), (b3.name, -30)] := by
    rw [hp0, hp1, hp2, hp3]
    simp only [rank_desc, insert_ranked]
    norm_num
  have hwin : ([b0, b1, b2, b3].filter fun b =>
      decide (b.name ∈ [b0.name, b2.name])) = [b0, b2] := by
    simp [List.filter_cons, hd01.symm, hd12, hd03.symm, hd23.symm]
  have hrep : ([b0, b1, b2, b3].filter fun b =>
      decide (b.name ∈ [b1.name, b3.name])) = [b1, b3] := by
    simp [List.filter_cons, hd01, hd03, hd12.symm, hd23]
  refine ⟨create_evolved_bot ([b0, b2].getD (pick 0 % 2) b1) b1.strategy_type
      cycle_number (suffix 0) (chosen 0) (u 0),
    create_evolved_bot ([b0, b2].getD (pick 1 % 2) b3) b3.strategy_type
      cycle_number (suffix 1) (chosen 1) (u 1), ?_, rfl, rfl, ?_, ?_⟩
  · simp only [run_evolution, List.map_cons, List.map_nil, hrank,
      List.take, List.drop, List.map, hwin, hrep, spawn_children,
      List.map_cons, List.map_nil]
    rfl
  · have h2 : pick 0 % 2 = 0 ∨ pick 0 % 2 = 1 := by omega
    rcases h2 with h | h <;> simp [h, create_evolved_bot]
  · have h2 : pick 1 % 2 = 0 ∨ pick 1 % 2 = 1 := by omega
    rcases h2 with h | h <;> simp [h, create_evolved_bot]

/-- Witness for C6 at four concrete bots. -/
theorem run_evolution_tournament_witness :
    ∃ c1 c2 : Bot,
      run_evolution
        [⟨"momentum-v1", "momentum", [], 0, "momentum-v1", false⟩,
         ⟨"meanrev-v1", "mean_reversion", [], 0, "meanrev-v1", false⟩,
         ⟨"sentiment-v1", "sentiment", [], 0, "sentiment-v1", false⟩,
         ⟨"hybrid-v1", "hybrid", [], 0, "hybrid-v1", false⟩]
        (fun n => if n = "momentum-v1" then 50 else if n = "meanrev-v1" then -10
          else if n = "sentiment-v1" then 5 else -30)
        2 7 (fun _ => 0) (fun _ => 123) (fun _ => []) (fun _ _ => 0) =
        ([reset_daily ⟨"momentum-v1", "momentum", [], 0, "momentum-v1", false⟩,
          reset_daily ⟨"sentiment-v1", "sentiment", [], 0, "sentiment-v1", false⟩,
          c1, c2], ["meanrev-v1", "hybrid-v1"]) ∧
      c1.generation = 7 ∧ c2.generation = 7 ∧
      (∃ p ∈ ([⟨"momentum-v1", "momentum", [], 0, "momentum-v1", false⟩,
          ⟨"sentiment-v1", "sentiment", [], 0, "sentiment-v1", false⟩] :
            List Bot), c1.lineage = p.name ++ " -> " ++ c1.name) ∧
      (∃ p ∈ ([⟨"momentum-v1", "momentum", [], 0, "momentum-v1", false⟩,
          ⟨"sentiment-v1", "sentiment", [], 0, "sentiment-v1", false⟩] :
            List Bot), c2.lineage = p.name ++ " -> " ++ c2.name) :=
  run_evolution_tournament _ _ _ _ _ 7 (fun _ => 0) (fun _ => 123)
    (fun _ => []) (fun _ _ => 0) rfl rfl rfl rfl
    (by decide) (by decide) (by decide) (by decide) (by decide) (by decide)

/-! ## 5-minute window classifier (`is_5min_market`, src/arena.py 174-192)

The regex `(\d{1,2}):(\d{2})(am|pm)-(\d{1,2}):(\d{2})(am|pm)` is embedded
as a recursive-descent matcher: `re.search` tries the pattern at each
position left to right, and the 1-2 digit hour is greedy (two digits,
falling back to one). The two hour alternatives can never both continue —
the character after the hour must be `:` — so local backtracking is
faithful to the regex. `\d` is matched as an ASCII digit. -/

/-- A matched range: hours, minutes and "is pm" for both endpoints. -/
structure TimeRange where
  h1 : ℕ
  m1 : ℕ
  pm1 : Bool
  h2 : ℕ
  m2 : ℕ
  pm2 : Bool
deriving Repr, DecidableEq

def digit_val (c : Char) : Option ℕ :=
  if c.isDigit then some (c.toNat - 48) else none

/-- Parse `:MM(am|pm)` after the hour digits. -/
def parse_min_ap : List Char → Option ((ℕ × Bool) × List Char)
  | ':' :: d1 :: d2 :: a :: p :: rest => do
    let x ← digit_val d1
    let y ← digit_val d2
    if a = 'a' ∧ p = 'm' then some ((10 * x + y, false), rest)
    else if a = 'p' ∧ p = 'm' then some ((10 * x + y, true), rest)
    else none
  | _ => none

/-- Parse `H:MM(am|pm)` with a greedy 1-2 digit hour. -/
def parse_time (l : List Char) : Option ((ℕ × ℕ × Bool) × List Char) :=
  (match l with
   | c1 :: c2 :: rest => do
     let a ← digit_val c1
     let b ← digit_val c2
     let ((m, ap), rest') ← parse_min_ap rest
     some ((10 * a + b, m, ap), rest')
   | _ => none) <|>
  (match l with
   | c1 :: rest => do
     let a ← digit_val c1
     let ((m, ap), rest') ← parse_min_ap rest
     some ((a, m, ap), rest')
   | _ => none)

/-- Match the full `H:MM(am|pm)-H:MM(am|pm)` pattern at the head. -/
def match_range (l : List Char) : Option TimeRange := do
  let ((h1, m1, ap1), rest) ← parse_time l
  match rest with
  | '-' :: rest2 => do
    let ((h2, m2, ap2), _) ← parse_time rest2
    some ⟨h1, m1, ap1, h2, m2, ap2⟩
  | _ => none

/-- Models `re.search`: first match over all start positions, left to right. -/
def search_range : List Char → Option TimeRange
  | [] => none
  | c :: rest =>
    match match_range (c :: rest) with
    | some t => some t
    | none => search_range rest

/-- The source's 24-hour conversion: pm adds 12 except for 12pm, 12am
becomes 0. -/
def to_24h (h : ℕ) (pm : Bool) : ℕ :=
  if pm ∧ h ≠ 12 then h + 12
  else if ¬pm ∧ h = 12 then 0
  else h

/-- The wrap-aware minute delta: end minus start, plus 24h when negative. -/
def wrap_delta (t : TimeRange) : ℤ :=
  let d : ℤ := ((to_24h t.h2 t.pm2 * 60 + t.m2 : ℕ) : ℤ) -
    ((to_24h t.h1 t.pm1 * 60 + t.m1 : ℕ) : ℤ)
  if d < 0 then d + 24 * 60 else d

/-- Embeds `is_5min_market` (src/arena.py lines 174-192): lowercase the question,
search for the time-range pattern, accept exactly a 5-minute delta. -/
def is_5min_market (question : String) : Bool :=
  match search_range (question.data.map Char.toLower) with
  | some t => wrap_delta t == 5
  | none => false

/-- C8: the classifier accepts exactly the questions whose first matched
time-range pattern has wrap-aware delta 5, and on the spec's three
examples it accepts 10:00PM-10:05PM, rejects 10:00PM-10:15PM, and accepts
the midnight wrap 11:58PM-12:03AM. -/
theorem is_5min_market_spec :
    (∀ q : String, is_5min_market q = true ↔
      ∃ t, search_range (q.data.map Char.toLower) = some t ∧
        wrap_delta t = 5) ∧
    is_5min_market "10:00PM-10:05PM" = true ∧
    is_5min_market "10:00PM-10:15PM" = false ∧
    is_5min_market "11:58PM-12:03AM" = true := by
  refine ⟨?_, by decide, by decide, by decide⟩
  intro q
  unfold is_5min_market
  cases h : search_range (q.data.map Char.toLower) with
  | none => simp
  | some t => simp [beq_iff_eq]

/-- Witness for C8: the characterization applied at the accepted example,
whose match is the literal parsed range. -/
theorem is_5min_market_spec_witness :
    ∃ t, search_range (("10:00PM-10:05PM" : String).data.map Char.toLower) =
        some t ∧ wrap_delta t = 5 :=
  (is_5min_market_spec.1 "10:00PM-10:05PM").mp (by decide)

/-! ## Trade resolution (`resolve_trades`, src/arena.py lines 195-276) -/

/-- A pending ledger row: `SELECT id, market_id, bot_name, side, amount
FROM trades WHERE outcome IS NULL`. -/
structure Trade where
  tid : ℕ
  market_id : String
  bot_name : String
  side : String
  amount : ℚ
deriving Repr, DecidableEq

/-- The per-trade loop of `resolve_trades`. `outcome_of m` models the
resolved-market lookup: `none` when market `m` is absent from the resolved
listing, `some none` when present with a null `outcome`, `some (some b)`
when resolved to boolean `b` (`true` = YES won). `feat_of m` is
`learning.extract_features(market_price, 0.0)` for that market (external).
Returns the `db.resolve_trade(id, outcome, pnl)` updates and the
`learning.record_outcome(bot, features, side, won)` callbacks, in order. -/
def resolve_trades (pending : List Trade)
    (outcome_of : String → Option (Option Bool))
    (feat_of : String → String) :
    List (ℕ × String × ℚ) × List (String × String × String × Bool) :=
  match pending with
  | [] => ([], [])
  | t :: rest =>
    let tail := resolve_trades rest outcome_of feat_of
    match outcome_of t.market_id with
    | some (some b) =>
      let won := if t.side = "yes" then b else !b
      ((t.tid, (if won then "win" else "loss"),
          if won then t.amount else -t.amount) :: tail.1,
        (t.bot_name, feat_of t.market_id, t.side, won) :: tail.2)
    | _ => tail

/-- C9: a pending trade matched to a market resolved to boolean `b` wins
exactly when its side matches the resolution (`yes` with `b = true`, `no`
with `b = false`), its pnl update is `+amount` on a win and `-amount` on a
loss, and the matching Bias-Oracle callback for that bot, feature key and
side is recorded. -/
theorem resolve_trades_outcome (pending : List Trade)
    (outcome_of : String → Option (Option Bool))
    (feat_of : String → String) (t : Trade) (b : Bool)
    (ht : t ∈ pending)
    (hb : outcome_of t.market_id = some (some b))
    (hside : t.side = "yes" ∨ t.side = "no") :
    ((if t.side = "yes" then b else !b) = true ↔
      ((t.side = "yes" ∧ b = true) ∨ (t.side = "no" ∧ b = false))) ∧
    (t.tid, (if (if t.side = "yes" then b else !b) then "win" else "loss"),
        if (if t.side = "yes" then b else !b) then t.amount else -t.amount) ∈
      (resolve_trades pending outcome_of feat_of).1 ∧
    (t.bot_name, feat_of t.market_id, t.side,
        (if t.side = "yes" then b else !b)) ∈
      (resolve_trades pending outcome_of feat_of).2 := by
  refine ⟨?_, ?_⟩
  · rcases hside with h | h <;> rw [h] <;> cases b <;> simp
  · induction pending with
    | nil => cases ht
    | cons s rest ih =>
      rcases List.mem_cons.mp ht with hts | hts
      · subst hts
        rw [show resolve_trades (t :: rest) outcome_of feat_of =
            (let tail := resolve_trades rest outcome_of feat_of
             match outcome_of t.market_id with
             | some (some b) =>
               let won := if t.side = "yes" then b else !b
               ((t.tid, (if won then "win" else "loss"),
                   if won then t.amount else -t.amount) :: tail.1,
                 (t.bot_name, feat_of t.market_id, t.side, won) :: tail.2)
             | _ => tail) from rfl, hb]
        exact ⟨List.mem_cons_self _ _, List.mem_cons_self _ _⟩
      · have htail := ih hts
        rw [show resolve_trades (s :: rest) outcome_of feat_of =
            (let tail := resolve_trades rest outcome_of feat_of
             match outcome_of s.market_id with
             | some (some b) =>
               let won := if s.side = "yes" then b else !b
               ((s.tid, (if won then "win" else "loss"),
                   if won then s.amount else -s.amount) :: tail.1,
                 (s.bot_name, feat_of s.market_id, s.side, won) :: tail.2)
             | _ => tail) from rfl]
        cases houts : outcome_of s.market_id with
        | none => simpa using htail
        | some ob =>
          cases ob with
          | none => simpa using htail
          | some b' =>
            exact ⟨List.mem_cons_of_mem _ htail.1,
              List.mem_cons_of_mem _ htail.2⟩

/-- Witness for C9: a yes-side trade on a market resolved true wins
`+amount`. -/
theorem resolve_trades_outcome_witness :
    (⟨1, "m1", "momentum-v1", "yes", 10⟩ : Trade) ∈
        ([⟨1, "m1", "momentum-v1", "yes", 10⟩] : List Trade) ∧
    ((fun _ : String => some (some true)) "m1" = some (some true)) ∧
    (1, "win", (10 : ℚ)) ∈
      (resolve_trades [⟨1, "m1", "momentum-v1", "yes", 10⟩]
        (fun _ => some (some true)) (fun _ => "f")).1 := by
  refine ⟨List.mem_cons_self _ _, rfl, ?_⟩
  have h := (resolve_trades_outcome [⟨1, "m1", "momentum-v1", "yes", 10⟩]
    (fun _ => some (some true)) (fun _ => "f")
    ⟨1, "m1", "momentum-v1", "yes", 10⟩ true
    (List.mem_cons_self _ _) rfl (Or.inl rfl)).2.1
  simpa using h

/-! ## Strategy variants' `analyze` (src/bots/bot_momentum.py,
bot_mean_rev.py, bot_late_window_maker.py)

All three are total functions here — the embedding has no exceptions to
raise. A hold result carries `confidence` as the source computes it and
`suggested_amount = 0` (the source's hold dicts simply omit the key).
The maker-quote metadata of the late-window bot is logging-only and not
modelled. `math.sqrt` is the parameter `sqrtFn`. -/

/-- A strategy signal as returned by `analyze`. -/
structure StratSignal where
  action : String
  side : String
  confidence : ℚ
  suggested_amount : ℚ
deriving Repr, DecidableEq

/-- The `MomentumBot` DEFAULT_PARAMS shape (src/bots/bot_momentum.py). -/
structure MomentumParams where
  lookback_candles : ℕ
  momentum_threshold : ℚ
  position_size_pct : ℚ
  min_confidence : ℚ
  trend_strength_weight : ℚ
  volume_weight : ℚ
deriving Repr, DecidableEq

/-- Count of consecutive moves agreeing with the overall move's sign:
pairs `(recent[i-1], recent[i])`. -/
def count_consecutive (pct_change : ℚ) (recent : List ℚ) : ℕ :=
  (recent.zip recent.tail).countP fun pr =>
    decide ((pct_change > 0 ∧ pr.2 > pr.1) ∨ (pct_change < 0 ∧ pr.2 < pr.1))

/-- Embeds `MomentumBot.analyze` (src/bots/bot_momentum.py lines 25-79). -/
def momentum_analyze (p : MomentumParams) (max_pos : ℚ)
    (prices volumes : List ℚ) : StratSignal :=
  if prices.length < p.lookback_candles then ⟨"hold", "yes", 0, 0⟩
  else
    let lookback := p.lookback_candles
    let recent := prices.drop (prices.length - lookback)
    let oldest := recent.headD 0
    let newest := recent.getLastD 0
    if oldest = 0 then ⟨"hold", "yes", 0, 0⟩
    else
      let pct_change := (newest - oldest) / oldest
      let threshold := p.momentum_threshold
      let consecutive := count_consecutive pct_change recent
      let trend_strength :=
        if 1 < recent.length then
          (consecutive : ℚ) / ((recent.length : ℚ) - 1)
        else 0
      let vol_signal :=
        if lookback ≤ volumes.length then
          let recent_vol := (volumes.drop (volumes.length - lookback)).sum
          let prev_vol :=
            if lookback * 2 ≤ volumes.length then
              ((volumes.drop (volumes.length - lookback * 2)).take
                lookback).sum
            else recent_vol
          min 1 (recent_vol / max prev_vol 1) * (1/2) + 1/4
        else (1 : ℚ)/2
      let confidence := trend_strength * p.trend_strength_weight +
        vol_signal * p.volume_weight
      if |pct_change| < threshold then ⟨"hold", "yes", confidence, 0⟩
      else
        ⟨"buy", if pct_change > 0 then "yes" else "no",
          min confidence (95/100), max_pos * p.position_size_pct⟩

/-- The `MeanRevBot` DEFAULT_PARAMS shape (src/bots/bot_mean_rev.py). -/
structure MeanRevParams where
  lookback_candles : ℕ
  bb_std_dev : ℚ
  rsi_period : ℕ
  rsi_oversold : ℚ
  rsi_overbought : ℚ
  reversion_threshold : ℚ
  position_size_pct : ℚ
  min_confidence : ℚ
deriving Repr, DecidableEq

/-- Embeds `MeanRevBot._calc_rsi` (src/bots/bot_mean_rev.py lines 28-45). -/
def calc_rsi (prices : List ℚ) (period : ℕ) : ℚ :=
  if prices.length < period + 1 then 50
  else
    let deltas := (prices.zip prices.tail).map fun pr => pr.2 - pr.1
    let gains := (deltas.map fun d => max d 0).drop (deltas.length - period)
    let losses :=
      (deltas.map fun d => max (-d) 0).drop (deltas.length - period)
    let avg_gain := gains.sum / (period : ℚ)
    let avg_loss := losses.sum / (period : ℚ)
    if avg_loss = 0 then 100
    else 100 - 100 / (1 + avg_gain / avg_loss)

/-- Embeds `MeanRevBot._calc_zscore` (src/bots/bot_mean_rev.py lines 47-54);
`math.sqrt` is the parameter `sqrtFn`. -/
def calc_zscore (sqrtFn : ℚ → ℚ) (prices : List ℚ) (lookback : ℕ) : ℚ :=
  if prices.length < lookback then 0
  else
    let window := prices.drop (prices.length - lookback)
    let mean := window.sum / (window.length : ℚ)
    let variance :=
      (window.map fun pq => (pq - mean) ^ 2).sum / (window.length : ℚ)
    let std := if variance > 0 then sqrtFn variance else 1
    (prices.getLastD 0 - mean) / std

/-- Embeds `MeanRevBot.analyze` (src/bots/bot_mean_rev.py lines 56-101). -/
def meanrev_analyze (sqrtFn : ℚ → ℚ) (p : MeanRevParams) (max_pos : ℚ)
    (prices : List ℚ) : StratSignal :=
  if prices.length < p.lookback_candles then ⟨"hold", "yes", 0, 0⟩
  else
    let zscore := calc_zscore sqrtFn prices p.lookback_candles
    let rsi := calc_rsi prices p.rsi_period
    let threshold := p.reversion_threshold
    if zscore > threshold ∧ rsi > p.rsi_overbought then
      ⟨"buy", "no",
        min (95/100) (1/2 + |zscore| * (15/100) + (rsi - 70) * (5/1000)),
        max_pos * p.position_size_pct⟩
    else if zscore < -threshold ∧ rsi < p.rsi_oversold then
      ⟨"buy", "yes",
        min (95/100) (1/2 + |zscore| * (15/100) + (30 - rsi) * (5/1000)),
        max_pos * p.position_size_pct⟩
    else ⟨"hold", "yes", 0, 0⟩

/-- The `LateWindowMakerBot` DEFAULT_PARAMS shape
(src/bots/bot_late_window_maker.py). -/
structure LwmParams where
  entry_window_sec : ℚ
  min_momentum : ℚ
  min_price_yes : ℚ
  max_price_yes : ℚ
  maker_offset_pct : ℚ
  position_size_pct : ℚ
  lookback_candles : ℕ
deriving Repr, DecidableEq

/-- Embeds `LateWindowMakerBot.analyze` (src/bots/bot_late_window_maker.py lines
50-135): time gate, momentum gate, NO ban, price-confirmation gates, then
a buy with urgency × momentum confidence. `time_rem` is
`market.get("time_remaining_seconds")` (`none` = key absent/null). -/
def lwm_analyze (p : LwmParams) (max_pos : ℚ) (time_rem : Option ℚ)
    (market_price : ℚ) (prices : List ℚ) : StratSignal :=
  match time_rem with
  | none => ⟨"hold", "yes", 0, 0⟩
  | some t =>
    if t > p.entry_window_sec then ⟨"hold", "yes", 0, 0⟩
    else
      let lb := p.lookback_candles
      let base := prices.getD (prices.length - lb) 0
      let momentum :=
        if lb ≤ prices.length ∧ base > 0 then
          (prices.getLastD 0 - base) / base
        else 0
      if |momentum| < p.min_momentum then ⟨"hold", "yes", 0, 0⟩
      else if momentum < 0 then ⟨"hold", "yes", 0, 0⟩
      else if market_price < p.min_price_yes then ⟨"hold", "yes", 0, 0⟩
      else if market_price > p.max_price_yes then ⟨"hold", "yes", 0, 0⟩
      else
        let time_weight := 1 - t / p.entry_window_sec
        let mom_strength := min 1 (|momentum| / (p.min_momentum * 5))
        let confidence :=
          min (92/100) (45/100 + time_weight * (30/100) +
            mom_strength * (20/100))
        ⟨"buy", "yes", confidence, max_pos * p.position_size_pct⟩

/-- C10: with fewer price points than the variant's lookback, each of the
three cited strategy variants returns a hold (the late-window bot
additionally needs its positive momentum threshold, as shipped, so the
zero momentum of missing data stays below it); being total functions of
their inputs, they raise nothing. -/
theorem analyze_insufficient_data_holds (mp : MomentumParams)
    (rp : MeanRevParams) (lp : LwmParams) (sqrtFn : ℚ → ℚ) (max_pos : ℚ)
    (prices volumes : List ℚ) (time_rem : Option ℚ) (market_price : ℚ)
    (hm : prices.length < mp.lookback_candles)
    (hr : prices.length < rp.lookback_candles)
    (hl : prices.length < lp.lookback_candles)
    (hmom : 0 < lp.min_momentum) :
    (momentum_analyze mp max_pos prices volumes).action = "hold" ∧
    (meanrev_analyze sqrtFn rp max_pos prices).action = "hold" ∧
    (lwm_analyze lp max_pos time_rem market_price prices).action = "hold" := by
  refine ⟨?_, ?_, ?_⟩
  · unfold momentum_analyze
    rw [if_pos hm]
  · unfold meanrev_analyze
    rw [if_pos hr]
  · unfold lwm_analyze
    cases time_rem with
    | none => rfl
    | some t =>
      simp only
      by_cases hw : t > lp.entry_window_sec
      · rw [if_pos hw]
      · rw [if_neg hw]
        have hnle : ¬ (lp.lookback_candles ≤ prices.length ∧
            prices.getD (prices.length - lp.lookback_candles) 0 > 0) := by
          intro hcon
          exact absurd hcon.1 (not_le.mpr hl)
        rw [if_neg hnle]
        rw [if_pos (by simpa using hmom)]

/-- Witness for C10 with two price points against the default lookbacks. -/
theorem analyze_insufficient_data_holds_witness :
    (([(1 : ℚ), 2] : List ℚ).length < 5 ∧ ([(1 : ℚ), 2] : List ℚ).length < 20 ∧
      ([(1 : ℚ), 2] : List ℚ).length < 3 ∧ (0 : ℚ) < 8/10000) ∧
    (momentum_analyze ⟨5, 2/1000, 5/100, 55/100, 7/10, 3/10⟩ 100 [1, 2]
      []).action = "hold" ∧
    (meanrev_analyze (fun q => q) ⟨20, 2, 14, 30, 70, 6/10, 5/100, 55/100⟩
      100 [1, 2]).action = "hold" ∧
    (lwm_analyze ⟨90, 8/10000, 58/100, 92/100, 6/100, 1/10, 3⟩ 100 (some 30)
      (6/10) [1, 2]).action = "hold" := by
  refine ⟨⟨by norm_num, by norm_num, by norm_num, by norm_num⟩, ?_⟩
  exact analyze_insufficient_data_holds ⟨5, 2/1000, 5/100, 55/100, 7/10, 3/10⟩
    ⟨20, 2, 14, 30, 70, 6/10, 5/100, 55/100⟩ ⟨90, 8/10000, 58/100, 92/100,
      6/100, 1/10, 3⟩ (fun q => q) 100 [1, 2] [] (some 30) (6/10)
    (by norm_num) (by norm_num) (by norm_num) (by norm_num)

end Arena
